import Mathlib

/-!
Shallow embedding of the legacy Kibana `IndexPattern` class
(`src/legacy/ui/public/index_patterns/_index_pattern.js`).

Modelling conventions:
* JavaScript `null`/`undefined` property values are both modelled as `none`
  (the code only ever distinguishes them through `!= null`, `!x` and
  `_.assign`, which treat them alike for our properties).
* Serialized body values (`prepBody` output) are modelled structurally by
  `BVal` instead of JSON strings: `angular.toJson` is deterministic and
  injective on each property type, so JavaScript string (in)equality of two
  serialized values coincides with structural (in)equality of the values.
* A body object maps each mapping key to `Option (Option BVal)`: the outer
  `Option` is key presence (`Object.keys`), the inner one is the JavaScript
  value (which may be `undefined`, as the `fieldFormatMap` serializer can
  return `undefined` for a present property).
* Remote interaction (`savedObjectsClient`, `fieldsFetcher`, the reload of
  `samePattern.init()` inside `save`) is supplied by environments; the side
  effects the class performs are recorded in an `Op` list.
-/

set_option autoImplicit false
set_option maxHeartbeats 1000000

namespace Kibana

/-- A field object held in an index pattern field list.  The three `has*`
flags model the presence (`'aggregatable' in field` etc.) of the
field-caps and doc-values properties checked by `isFieldRefreshRequired`. -/
structure SField where
  name : String
  script : Option String
  type : String
  scripted : Option Bool
  lang : Option String
  count : Option Int
  hasAggregatable : Bool
  hasSearchable : Bool
  hasReadFromDocValues : Bool
deriving DecidableEq

/-- A source filter entry (`sourceFilters` items have a `value` property). -/
structure SrcFilter where
  value : String
deriving DecidableEq

/-- A field format configuration: the persisted form `{id, params}` of a
field format, which is also what a constructed `FieldFormat` instance
carries.  `params` stands for the abstract parameter object. -/
structure FormatCfg where
  id : String
  params : String
deriving DecidableEq

/-- A serialized body value, modelled structurally (see file comment):
`text`/`keyword` mapping types pass the string through, `json` mapping
types serialize the structured value, `fieldFormatMap` serializes the
filtered format map. -/
inductive BVal
  | text (s : String)
  | fieldsJson (v : List SField)
  | filtersJson (v : List SrcFilter)
  | ffmJson (v : List (String × FormatCfg))
  | rawJson (s : String)
deriving DecidableEq

/-- The keys of the `mapping` object expanded at the top of the provider. -/
inductive MKey
  | title
  | timeFieldName
  | intervalName
  | fields
  | sourceFilters
  | fieldFormatMap
  | type
  | typeMeta
deriving DecidableEq

/-- The mapping keys in object-literal insertion order (the order
`_.forOwn(mapping, ...)` and `Object.keys` iterate them). -/
def mappingKeys : List MKey :=
  [MKey.title, MKey.timeFieldName, MKey.intervalName, MKey.fields,
   MKey.sourceFilters, MKey.fieldFormatMap, MKey.type, MKey.typeMeta]

/-- A serialized body (`prepBody` result, `originalBody`).  Each field is
`none` when the key is absent from the object, `some none` when the key is
present with value `undefined`, and `some (some v)` otherwise. -/
structure Body where
  title : Option (Option BVal)
  timeFieldName : Option (Option BVal)
  intervalName : Option (Option BVal)
  fields : Option (Option BVal)
  sourceFilters : Option (Option BVal)
  fieldFormatMap : Option (Option BVal)
  type : Option (Option BVal)
  typeMeta : Option (Option BVal)
deriving DecidableEq

/-- Key lookup on a body object (presence and raw slot). -/
def Body.get (b : Body) : MKey → Option (Option BVal)
  | MKey.title => b.title
  | MKey.timeFieldName => b.timeFieldName
  | MKey.intervalName => b.intervalName
  | MKey.fields => b.fields
  | MKey.sourceFilters => b.sourceFilters
  | MKey.fieldFormatMap => b.fieldFormatMap
  | MKey.type => b.type
  | MKey.typeMeta => b.typeMeta

/-- JavaScript property access `body[key]`: an absent key and a key present
with value `undefined` both read as `undefined`. -/
def Body.atKey (b : Body) (k : MKey) : Option BVal :=
  (b.get k).join

/-- The list `Object.keys(body)`, in mapping insertion order. -/
def Body.keys (b : Body) : List MKey :=
  mappingKeys.filter (fun k => (b.get k).isSome)

/-- The empty object `{}`. -/
def emptyBody : Body :=
  ⟨none, none, none, none, none, none, none, none⟩

/-- The in-memory state of an `IndexPattern` instance: its identity
(`id`, `version`), the eight mapping-backed properties, and the
`originalBody` snapshot taken by `init`. -/
structure Pattern where
  id : Option String
  version : Option Nat
  title : Option String
  timeFieldName : Option String
  intervalName : Option String
  fields : Option (List SField)
  sourceFilters : Option (List SrcFilter)
  fieldFormatMap : Option (List (String × Option FormatCfg))
  type : Option String
  typeMeta : Option String
  originalBody : Body
deriving DecidableEq

/-- Errors thrown or rejected with by the embedded code paths.
`httpStatus` models a saved-objects client error carrying `res.status`. -/
inductive JErr
  | savedObjectNotFound (objType : String) (id : Option String)
  | duplicateField (name : String)
  | indexPatternMissingIndices
  | httpStatus (status : Nat)
  | other (tag : String)
deriving DecidableEq

/-- The lookup `_.get(err, 'res.status')`. -/
def JErr.status : JErr → Option Nat
  | JErr.httpStatus s => some s
  | _ => none

/-- Observable side effects, in execution order. -/
inductive Op
  | watch
  | unwatch
  | clearIdsCache
  | fetchFields
  | get (objType : String) (id : Option String)
  | update (objType : String) (id : Option String) (body : Body) (version : Option Nat)
  | delete (objType : String) (id : Option String)
  | patternCacheClear (id : Option String)
  | notifyDanger
  | notifyError
  | saveCall
deriving DecidableEq

/-- The saved-object type: `const type = 'index-pattern'`. -/
def objectType : String := "index-pattern"

/-- The retry budget: `const MAX_ATTEMPTS_TO_RESOLVE_CONFLICTS = 3`. -/
def MAX_ATTEMPTS_TO_RESOLVE_CONFLICTS : Nat := 3

/-- JavaScript truthiness of an id string (`!this.id`). -/
def idTruthy : Option String → Bool
  | none => false
  | some s => s != ""

/-- JavaScript falsiness of a title value (`!indexPattern.title`). -/
def titleFalsy : Option String → Bool
  | none => true
  | some s => s == ""

/-- Truthiness of a saved-object version (`resp._version ? true : false`). -/
def versionTruthy : Option Nat → Bool
  | none => false
  | some v => v != 0

/-- The `fieldFormatMap` `_serialize` function: `_.transform` with
`serializeFieldFormatMap` keeps only the entries whose format is truthy,
and the result is `undefined` when nothing remains. -/
def ffmSerialize (m : List (String × Option FormatCfg)) : Option (List (String × FormatCfg)) :=
  let serialized := m.filterMap (fun e => e.2.map (fun f => (e.1, f)))
  if serialized.isEmpty then none else some serialized

/-- The function `deserializeFieldFormatMap`: looks the format id up in the registry and
returns a format instance, or `undefined` when the id is unknown
(`FieldFormat && new FieldFormat(...)`). -/
def deserializeFieldFormatMap (reg : String → Bool) (cfg : FormatCfg) : Option FormatCfg :=
  if reg cfg.id then some cfg else none

/-- The `fieldFormatMap` `_deserialize` function: the absent-value default
is the empty object `'{}'`, and each entry value is deserialized through
`deserializeFieldFormatMap`. -/
def ffmDeserialize (reg : String → Bool) (stored : Option (List (String × FormatCfg))) :
    List (String × Option FormatCfg) :=
  (stored.getD []).map (fun e => (e.1, deserializeFieldFormatMap reg e.2))

/-- The method `prepBody` (pure part): each mapping key is written to the body exactly
when the property is neither `null` nor `undefined` (`this[fieldName] !=
null`), applying `_serialize` where the mapping defines one.

Modelled from the spec for the shorthand mapping types (the
`mapping_setup.expandShorthand` provider is not among the provided
sources): a `json`-typed mapping serializes with `angular.toJson` /
`angular.fromJson`, while `text` and `keyword` mappings define no
`_serialize`, matching the spec's description of the class as performing
"serialization of a saved configuration object". -/
def prepBody (p : Pattern) : Body where
  title := p.title.map (fun v => some (BVal.text v))
  timeFieldName := p.timeFieldName.map (fun v => some (BVal.text v))
  intervalName := p.intervalName.map (fun v => some (BVal.text v))
  fields := p.fields.map (fun v => some (BVal.fieldsJson v))
  sourceFilters := p.sourceFilters.map (fun v => some (BVal.filtersJson v))
  fieldFormatMap := p.fieldFormatMap.map (fun m => (ffmSerialize m).map BVal.ffmJson)
  type := p.type.map (fun v => some (BVal.text v))
  typeMeta := p.typeMeta.map (fun v => some (BVal.rawJson v))

/-- The side effects of a `prepBody` call: it clears the index-pattern id
list cache (`getIds.clearCache()`). -/
def prepBodyOps : List Op := [Op.clearIdsCache]

/-- Whether a pattern property is neither `null` nor `undefined`. -/
def propPresent (p : Pattern) : MKey → Bool
  | MKey.title => p.title.isSome
  | MKey.timeFieldName => p.timeFieldName.isSome
  | MKey.intervalName => p.intervalName.isSome
  | MKey.fields => p.fields.isSome
  | MKey.sourceFilters => p.sourceFilters.isSome
  | MKey.fieldFormatMap => p.fieldFormatMap.isSome
  | MKey.type => p.type.isSome
  | MKey.typeMeta => p.typeMeta.isSome

/-- The keys the local body changed since the pattern was last pulled:
`Object.keys(body).filter(key => body[key] !== this.originalBody[key])`. -/
def originalChangedKeys (p : Pattern) : List MKey :=
  (Body.keys (prepBody p)).filter
    (fun key => Body.atKey (prepBody p) key != Body.atKey p.originalBody key)

/-- The keys the freshly loaded server document (`samePattern`) changed
relative to both the local body and the original body:
`Object.keys(updatedBody).filter(key => updatedBody[key] !== body[key] &&
this.originalBody[key] !== updatedBody[key])`. -/
def serverChangedKeys (p sp : Pattern) : List MKey :=
  (Body.keys (prepBody sp)).filter
    (fun key => Body.atKey (prepBody sp) key != Body.atKey (prepBody p) key
      && Body.atKey p.originalBody key != Body.atKey (prepBody sp) key)

/-- The nested `for`-loop collision scan over `originalChangedKeys` and
`serverChangedKeys`. -/
def unresolvedCollision (p sp : Pattern) : Bool :=
  (originalChangedKeys p).any (fun ok => (serverChangedKeys p sp).any (fun sk => ok = sk))

/-- The assignment `this[key] = samePattern[key]` for one mapping key. -/
def copyKey (q sp : Pattern) : MKey → Pattern
  | MKey.title => { q with title := sp.title }
  | MKey.timeFieldName => { q with timeFieldName := sp.timeFieldName }
  | MKey.intervalName => { q with intervalName := sp.intervalName }
  | MKey.fields => { q with fields := sp.fields }
  | MKey.sourceFilters => { q with sourceFilters := sp.sourceFilters }
  | MKey.fieldFormatMap => { q with fieldFormatMap := sp.fieldFormatMap }
  | MKey.type => { q with type := sp.type }
  | MKey.typeMeta => { q with typeMeta := sp.typeMeta }

/-- The pattern after a resolvable conflict: every server-changed key is
copied from `samePattern` and the server's version is adopted
(`serverChangedKeys.forEach(key => this[key] = samePattern[key]);
setVersion(this, samePattern.version)`). -/
def mergedPattern (p sp : Pattern) : Pattern :=
  let m := (serverChangedKeys p sp).foldl (fun q key => copyKey q sp key) p
  { m with version := sp.version }

/-- Result of an update call against the saved-objects client. -/
inductive UpdResult
  | ok (id : String) (version : Nat)
  | err (e : JErr)

/-- Environment for `save`: the outcome of the `n`-th
`savedObjectsClient.update` call of a retry cascade (indexed by
`saveAttempts`), and the state of `samePattern` after `samePattern.init()`
during the `n`-th conflict resolution (the reload of the current server
document, abstracted to its observable result). -/
structure SaveEnv where
  upd : Nat → UpdResult
  srv : Nat → Except JErr Pattern

/-- Result of a method that mutates the pattern and returns a promise:
the final pattern state, `none` for a resolved promise or `some e` for a
rejection with `e`, and the recorded side effects. -/
structure SaveResult where
  pat : Pattern
  res : Option JErr
  ops : List Op
deriving DecidableEq

/-- The effects every `save` call performs before its update resolves:
`prepBody` clears the id cache, then the update is issued with the body
and the pattern's current version. -/
def baseOps (p : Pattern) : List Op :=
  [Op.clearIdsCache, Op.update objectType p.id (prepBody p) p.version]

/-- The method `IndexPattern.save(saveAttempts)`.  On success the store id and
version are adopted.  On an error with `res.status === 409` while
`saveAttempts++ < MAX_ATTEMPTS_TO_RESOLVE_CONFLICTS`, the current server
document is reloaded (`Op.get`); on an unresolved collision the user is
notified and the original error rethrown, otherwise the server-changed
keys are merged, the pattern cache entry is cleared and the save retried
with the incremented attempt count.  Any other error rejects the save. -/
def save (env : SaveEnv) (p : Pattern) (saveAttempts : Nat) : SaveResult :=
  match env.upd saveAttempts with
  | UpdResult.ok newId newVersion =>
      { pat := { p with id := some newId, version := some newVersion }
        res := none
        ops := baseOps p }
  | UpdResult.err e =>
      if hc : JErr.status e = some 409 ∧ saveAttempts < MAX_ATTEMPTS_TO_RESOLVE_CONFLICTS then
        match env.srv saveAttempts with
        | Except.error e2 =>
            { pat := p, res := some e2, ops := baseOps p ++ [Op.get objectType p.id] }
        | Except.ok sp =>
            if unresolvedCollision p sp then
              { pat := p
                res := some e
                ops := baseOps p ++ [Op.get objectType p.id, Op.clearIdsCache, Op.notifyDanger] }
            else
              let r := save env (mergedPattern p sp) (saveAttempts + 1)
              { pat := r.pat
                res := r.res
                ops := baseOps p ++
                  [Op.get objectType p.id, Op.clearIdsCache, Op.patternCacheClear p.id] ++ r.ops }
      else
        { pat := p, res := some e, ops := baseOps p }
termination_by MAX_ATTEMPTS_TO_RESOLVE_CONFLICTS - saveAttempts
decreasing_by
  have h2 := hc.2
  simp only [MAX_ATTEMPTS_TO_RESOLVE_CONFLICTS] at *
  omega

/-- The method `getScriptedFields`: `_.where(this.fields, { scripted: true })`
(an undefined field list filters to the empty list). -/
def getScriptedFields (p : Pattern) : List SField :=
  (p.fields.getD []).filter (fun f => f.scripted == some true)

/-- The method `getNonScriptedFields`: `_.where(this.fields, { scripted: false })`. -/
def getNonScriptedFields (p : Pattern) : List SField :=
  (p.fields.getD []).filter (fun f => f.scripted == some false)

/-- The method `addScriptedField(name, script, type = 'string', lang)`: throws
`DuplicateField` when the name matches an existing scripted field,
otherwise pushes the new scripted field onto `this.fields` and calls
`this.save()`.  A missing field list would make `this.fields.push` throw a
`TypeError` in JavaScript, modelled by the `other` error. -/
def addScriptedField (p : Pattern) (name script : String) (ftype : Option String)
    (lang : Option String) : SaveResult :=
  let scriptedFields := getScriptedFields p
  let names := scriptedFields.map (fun f => f.name)
  if names.contains name then
    { pat := p, res := some (JErr.duplicateField name), ops := [] }
  else
    match p.fields with
    | none => { pat := p, res := some (JErr.other "TypeError"), ops := [] }
    | some fs =>
        { pat := { p with fields := some (fs ++
            [{ name := name, script := some script, type := ftype.getD "string"
               scripted := some true, lang := lang, count := none
               hasAggregatable := false, hasSearchable := false
               hasReadFromDocValues := false }]) }
          res := none
          ops := [Op.saveCall] }

/-- The `FieldList` by-name lookup `_.get(this, ['fields', 'byName',
fieldName])`.  Modelled from the spec: the `FieldList` provider is not
among the provided sources; `byName` indexes the field list by field name
("a logical dataset with field metadata"), here as first-match lookup. -/
def byName (p : Pattern) (fieldName : String) : Option SField :=
  (p.fields.getD []).find? (fun f => f.name == fieldName)

/-- Replace the count of the first field with the given name (the mutation
`field.count = count` through the `byName` reference). -/
def setFieldCount : List SField → String → Int → List SField
  | [], _, _ => []
  | f :: fs, n, c =>
      if f.name == n then { f with count := some c } :: fs
      else f :: setFieldCount fs n c

/-- The method `popularizeField(fieldName, unit = 1)`: missing fields are ignored;
the new count is clamped at zero; the field is updated and `save` called
only when the clamped count differs from the current one. -/
def popularizeField (p : Pattern) (fieldName : String) (unit : Int) : SaveResult :=
  match byName p fieldName with
  | none => { pat := p, res := none, ops := [] }
  | some field =>
      let count : Int := max ((field.count.getD 0) + unit) 0
      if field.count = some count then { pat := p, res := none, ops := [] }
      else
        { pat := { p with fields := some (setFieldCount (p.fields.getD []) fieldName count) }
          res := none
          ops := [Op.saveCall] }

/-- The helper `isFieldRefreshRequired`: an undefined field list requires a refresh;
otherwise a refresh is required when every field lacks the field-caps
properties or the doc-values flag. -/
def isFieldRefreshRequired (p : Pattern) : Bool :=
  match p.fields with
  | none => true
  | some fs =>
      fs.all (fun field =>
        let hasFieldCaps := field.hasAggregatable && field.hasSearchable
        let hasDocValuesFlag := field.hasReadFromDocValues
        !hasFieldCaps || !hasDocValuesFlag)

/-- The helper `initFields(indexPattern)` with no input: rebuilds the `FieldList`
from the existing fields (or the empty list). -/
def initFieldsP (p : Pattern) : Pattern :=
  { p with fields := some (p.fields.getD []) }

/-- Resolution value of `refreshFields`: the undefined value of the save
chain, or the empty list returned by the missing-indices handler. -/
inductive RVal
  | unit
  | emptyList
deriving DecidableEq

/-- Result of `refreshFields`: final pattern state, resolution or
rejection, recorded side effects. -/
structure RefreshResult where
  pat : Pattern
  res : Except JErr RVal
  ops : List Op

/-- The `catch` handler of `refreshFields`: an `IndexPatternMissingIndices`
error is notified and swallowed (resolving with `[]`), any other error is
notified and rethrown. -/
def refreshHandleErr (e : JErr) (p : Pattern) (ops : List Op) : RefreshResult :=
  if e = JErr.indexPatternMissingIndices then
    { pat := p, res := Except.ok RVal.emptyList, ops := ops ++ [Op.notifyDanger] }
  else
    { pat := p, res := Except.error e, ops := ops ++ [Op.notifyError] }

/-- The method `refreshFields`: fetch the remote fields (`fetchFields` concatenates
them with the scripted fields and installs the new field list), then save;
errors from either step go through `refreshHandleErr`. -/
def refreshFields (fetchRes : Except JErr (List SField)) (senv : SaveEnv)
    (p : Pattern) : RefreshResult :=
  match fetchRes with
  | Except.error e => refreshHandleErr e p [Op.fetchFields]
  | Except.ok flds =>
      let p1 := { p with fields := some (flds ++ getScriptedFields p) }
      let s := save senv p1 0
      match s.res with
      | none => { pat := s.pat, res := Except.ok RVal.unit, ops := Op.fetchFields :: s.ops }
      | some e => refreshHandleErr e s.pat (Op.fetchFields :: s.ops)

/-- A stored index-pattern document's attributes (the eight mapping keys
as persisted; JSON has no `undefined`, so presence is a single option). -/
structure StoredDoc where
  title : Option String
  timeFieldName : Option String
  intervalName : Option String
  fields : Option (List SField)
  sourceFilters : Option (List SrcFilter)
  fieldFormatMap : Option (List (String × FormatCfg))
  type : Option String
  typeMeta : Option String
deriving DecidableEq

/-- A `savedObjectsClient.get` response. -/
structure GetResp where
  id : String
  objType : String
  attributes : StoredDoc
  version : Option Nat
deriving DecidableEq

/-- Environment for `init`: the field-format registry (`fieldFormats.byId`
membership), the `savedObjectsClient.get` outcome, the field-fetcher
outcome and the save environment used by a possible `refreshFields`. -/
structure InitEnv where
  reg : String → Bool
  getResp : Except JErr GetResp
  fetchRes : Except JErr (List SField)
  senv : SaveEnv

/-- The compatibility response `init` builds from the client response:
`found` is the truthiness of `resp._version`. -/
structure EsResponse where
  docId : String
  docType : String
  source : StoredDoc
  found : Bool

/-- The deserialize-and-assign step of `updateFromElasticSearch`:
`_.forOwn(mapping, ...)` runs `_deserialize` on the four keys that define
one (creating those keys on `_source` even when absent, `fieldFormatMap`
defaulting to the empty map), then `_.assign(indexPattern, _source)`
copies every `_source` key onto the pattern. -/
def assignSource (reg : String → Bool) (p : Pattern) (d : StoredDoc) : Pattern :=
  { p with
    title := match d.title with | some t => some t | none => p.title
    timeFieldName := match d.timeFieldName with | some v => some v | none => p.timeFieldName
    intervalName := match d.intervalName with | some v => some v | none => p.intervalName
    type := match d.type with | some v => some v | none => p.type
    fields := d.fields
    sourceFilters := d.sourceFilters
    typeMeta := d.typeMeta
    fieldFormatMap := some (ffmDeserialize reg d.fieldFormatMap) }

/-- The helper `indexFields(indexPattern, forceFieldRefresh)`: nothing to do without
an id; otherwise refresh the fields when forced or required, then
re-initialize the field list. -/
def indexFields (env : InitEnv) (p : Pattern) (force : Bool) : SaveResult :=
  if idTruthy p.id = false then { pat := p, res := none, ops := [] }
  else if force || isFieldRefreshRequired p then
    let r := refreshFields env.fetchRes env.senv p
    match r.res with
    | Except.error e => { pat := r.pat, res := some e, ops := r.ops }
    | Except.ok _ => { pat := initFieldsP r.pat, res := none, ops := r.ops }
  else
    { pat := initFieldsP p, res := none, ops := [] }

/-- The helper `updateFromElasticSearch(indexPattern, response, forceFieldRefresh)`:
a not-found response throws `SavedObjectNotFound`; otherwise the source is
deserialized and assigned, a falsy title is replaced by the id, and
`indexFields` runs. -/
def updateFromElasticSearch (env : InitEnv) (p : Pattern) (response : EsResponse)
    (force : Bool) : SaveResult :=
  if response.found = false then
    { pat := p, res := some (JErr.savedObjectNotFound objectType p.id), ops := [] }
  else
    let p1 := assignSource env.reg p response.source
    let p2 := if titleFalsy p1.title then { p1 with title := p1.id } else p1
    indexFields env p2 force

/-- The method `IndexPattern.init(forceFieldRefresh)`: starts a config watcher; with
no (truthy) id it resolves to the pattern itself at once; otherwise it
fetches the saved object by type and id, records the version, snapshots
`originalBody` before and after `updateFromElasticSearch`, and resolves to
the pattern. -/
def init (env : InitEnv) (force : Bool) (p : Pattern) : SaveResult :=
  if idTruthy p.id = false then { pat := p, res := none, ops := [Op.watch] }
  else
    match env.getResp with
    | Except.error e =>
        { pat := p, res := some e, ops := [Op.watch, Op.get objectType p.id] }
    | Except.ok resp =>
        let p1 := { p with version := resp.version }
        let response : EsResponse :=
          { docId := resp.id, docType := resp.objType
            source := resp.attributes, found := versionTruthy resp.version }
        let p2 := { p1 with originalBody := prepBody p1 }
        let u := updateFromElasticSearch env p2 response force
        match u.res with
        | some e =>
            { pat := u.pat, res := some e
              ops := [Op.watch, Op.get objectType p.id, Op.clearIdsCache] ++ u.ops }
        | none =>
            { pat := { u.pat with originalBody := prepBody u.pat }, res := none
              ops := [Op.watch, Op.get objectType p.id, Op.clearIdsCache] ++ u.ops
                ++ [Op.clearIdsCache] }

/-- The method `destroy()`: stop watching config, clear the pattern cache entry, then
delete the saved object from the store. -/
def destroyOps (p : Pattern) : List Op :=
  [Op.unwatch, Op.patternCacheClear p.id, Op.delete objectType p.id]

/-- Recognizer for update operations in an effect log. -/
def isUpdateOp : Op → Bool
  | Op.update _ _ _ _ => true
  | _ => false

/-- Number of saved-objects update calls recorded in an effect log. -/
def countUpd (ops : List Op) : Nat :=
  ops.countP isUpdateOp

/-- Agreement of two patterns at one mapping-backed property. -/
def agreesAt (q r : Pattern) : MKey → Prop
  | MKey.title => q.title = r.title
  | MKey.timeFieldName => q.timeFieldName = r.timeFieldName
  | MKey.intervalName => q.intervalName = r.intervalName
  | MKey.fields => q.fields = r.fields
  | MKey.sourceFilters => q.sourceFilters = r.sourceFilters
  | MKey.fieldFormatMap => q.fieldFormatMap = r.fieldFormatMap
  | MKey.type => q.type = r.type
  | MKey.typeMeta => q.typeMeta = r.typeMeta

/-! ### Branch lemmas for `save` -/

theorem save_upd_ok (env : SaveEnv) (p : Pattern) (n : Nat) (i : String) (v : Nat)
    (h : env.upd n = UpdResult.ok i v) :
    save env p n =
      { pat := { p with id := some i, version := some v }, res := none, ops := baseOps p } := by
  rw [save.eq_def, h]

theorem save_upd_err_reject (env : SaveEnv) (p : Pattern) (n : Nat) (e : JErr)
    (h : env.upd n = UpdResult.err e)
    (hs : ¬(JErr.status e = some 409 ∧ n < MAX_ATTEMPTS_TO_RESOLVE_CONFLICTS)) :
    save env p n = { pat := p, res := some e, ops := baseOps p } := by
  rw [save.eq_def, h]
  exact dif_neg hs

theorem save_conflict_initfail (env : SaveEnv) (p : Pattern) (n : Nat) (e e2 : JErr)
    (h : env.upd n = UpdResult.err e) (h409 : JErr.status e = some 409)
    (hn : n < MAX_ATTEMPTS_TO_RESOLVE_CONFLICTS) (hsrv : env.srv n = Except.error e2) :
    save env p n =
      { pat := p, res := some e2, ops := baseOps p ++ [Op.get objectType p.id] } := by
  rw [save.eq_def, h]
  simp [h409, hn, hsrv]

theorem save_conflict_collision (env : SaveEnv) (p sp : Pattern) (n : Nat) (e : JErr)
    (h : env.upd n = UpdResult.err e) (h409 : JErr.status e = some 409)
    (hn : n < MAX_ATTEMPTS_TO_RESOLVE_CONFLICTS) (hsrv : env.srv n = Except.ok sp)
    (hcol : unresolvedCollision p sp = true) :
    save env p n =
      { pat := p, res := some e
        ops := baseOps p ++ [Op.get objectType p.id, Op.clearIdsCache, Op.notifyDanger] } := by
  rw [save.eq_def, h]
  simp [h409, hn, hsrv, hcol]

theorem save_conflict_merge (env : SaveEnv) (p sp : Pattern) (n : Nat) (e : JErr)
    (h : env.upd n = UpdResult.err e) (h409 : JErr.status e = some 409)
    (hn : n < MAX_ATTEMPTS_TO_RESOLVE_CONFLICTS) (hsrv : env.srv n = Except.ok sp)
    (hcol : unresolvedCollision p sp = false) :
    save env p n =
      { pat := (save env (mergedPattern p sp) (n + 1)).pat
        res := (save env (mergedPattern p sp) (n + 1)).res
        ops := baseOps p ++
          [Op.get objectType p.id, Op.clearIdsCache, Op.patternCacheClear p.id] ++
          (save env (mergedPattern p sp) (n + 1)).ops } := by
  rw [save.eq_def, h]
  simp [h409, hn, hsrv, hcol]

/-- Every `save` call first clears the id cache (inside `prepBody`) and
then issues an update carrying the current body and version. -/
theorem save_ops_shape (env : SaveEnv) (p : Pattern) (n : Nat) :
    ∃ rest, (save env p n).ops =
      Op.clearIdsCache :: Op.update objectType p.id (prepBody p) p.version :: rest := by
  rcases hu : env.upd n with ⟨i, v⟩ | e
  · rw [save_upd_ok env p n i v hu]
    exact ⟨[], rfl⟩
  · by_cases hc : JErr.status e = some 409 ∧ n < MAX_ATTEMPTS_TO_RESOLVE_CONFLICTS
    · rcases hsrv : env.srv n with e2 | sp
      · rw [save_conflict_initfail env p n e e2 hu hc.1 hc.2 hsrv]
        exact ⟨_, rfl⟩
      · rcases hcol : unresolvedCollision p sp with _ | _
        · rw [save_conflict_merge env p sp n e hu hc.1 hc.2 hsrv hcol]
          exact ⟨_, rfl⟩
        · rw [save_conflict_collision env p sp n e hu hc.1 hc.2 hsrv hcol]
          exact ⟨_, rfl⟩
    · rw [save_upd_err_reject env p n e hu hc]
      exact ⟨[], rfl⟩

/-! ### C5: prepBody key inclusion and fieldFormatMap serialization -/

/-- C5: `prepBody` writes a mapping key to the serialized body exactly when
the corresponding pattern property is neither `null` nor `undefined`
(applying the field-specific serializer where the mapping defines one);
the `fieldFormatMap` serializer returns `undefined` exactly when the map
has no entry with a truthy format, and the `fieldFormatMap` deserializer
maps an absent stored value to the empty map. -/
theorem prepBody_key_presence_spec :
    (∀ (p : Pattern) (k : MKey), (Body.get (prepBody p) k).isSome = propPresent p k) ∧
    (∀ m : List (String × Option FormatCfg),
      (ffmSerialize m = none ↔ ∀ e ∈ m, e.2 = none)) ∧
    (∀ reg : String → Bool, ffmDeserialize reg none = []) := by
  refine ⟨?_, ?_, ?_⟩
  · intro p k
    cases k <;> simp [prepBody, Body.get, propPresent]
  · intro m
    have hstep : ffmSerialize m = none ↔
        (m.filterMap (fun e => e.2.map (fun f => (e.1, f)))) = [] := by
      simp only [ffmSerialize]
      split
      next hemp =>
        rw [List.isEmpty_iff] at hemp
        simp [hemp]
      next hemp =>
        simp only [List.isEmpty_iff] at hemp
        simp [hemp]
    rw [hstep, List.filterMap_eq_nil_iff]
    constructor
    · intro h e he
      have := h e he
      simpa using this
    · intro h e he
      simp [h e he]
  · intro reg
    rfl

/-! ### C6: addScriptedField and the scripted field accessors -/

/-- C6: `addScriptedField` throws `DuplicateField` (leaving the field list
unchanged) when the name matches an existing scripted field, and otherwise
appends the new scripted field (type defaulting to `'string'`) and saves;
`getScriptedFields` returns exactly the fields with `scripted` equal to
`true` and `getNonScriptedFields` exactly those with `scripted` equal to
`false`. -/
theorem addScriptedField_spec (p : Pattern) (name script : String)
    (ftype lang : Option String) (fs : List SField) (hf : p.fields = some fs) :
    (name ∈ (getScriptedFields p).map (fun f => f.name) →
      addScriptedField p name script ftype lang =
        { pat := p, res := some (JErr.duplicateField name), ops := [] }) ∧
    (name ∉ (getScriptedFields p).map (fun f => f.name) →
      addScriptedField p name script ftype lang =
        { pat := { p with fields := some (fs ++
            [{ name := name, script := some script, type := ftype.getD "string"
               scripted := some true, lang := lang, count := none
               hasAggregatable := false, hasSearchable := false
               hasReadFromDocValues := false }]) }
          res := none
          ops := [Op.saveCall] }) ∧
    (∀ f : SField, f ∈ getScriptedFields p ↔ f ∈ fs ∧ f.scripted = some true) ∧
    (∀ f : SField, f ∈ getNonScriptedFields p ↔ f ∈ fs ∧ f.scripted = some false) := by
  refine ⟨?_, ?_, ?_, ?_⟩
  · intro hmem
    have hcontains : ((getScriptedFields p).map (fun f => f.name)).contains name = true :=
      List.elem_eq_true_of_mem hmem
    simp only [addScriptedField, hcontains, if_true]
  · intro hmem
    have hcontains : ((getScriptedFields p).map (fun f => f.name)).contains name = false := by
      rw [Bool.eq_false_iff]
      intro hcon
      exact hmem (List.mem_of_elem_eq_true hcon)
    simp only [addScriptedField, hcontains, Bool.false_eq_true, if_false, hf]
  · intro f
    simp [getScriptedFields, hf, List.mem_filter]
  · intro f
    simp [getNonScriptedFields, hf, List.mem_filter]

/-- Field list fixture for the C6 witness. -/
def fieldsC6 : List SField :=
  [{ name := "a", script := some "1", type := "string", scripted := some true
     lang := none, count := none, hasAggregatable := false, hasSearchable := false
     hasReadFromDocValues := false },
   { name := "b", script := none, type := "number", scripted := some false
     lang := none, count := some 2, hasAggregatable := true, hasSearchable := true
     hasReadFromDocValues := true }]

/-- Pattern fixture for the C6 witness. -/
def patC6 : Pattern :=
  { id := some "c6", version := some 1, title := some "t", timeFieldName := none
    intervalName := none, fields := some fieldsC6, sourceFilters := none
    fieldFormatMap := none, type := none, typeMeta := none, originalBody := emptyBody }

theorem addScriptedField_spec_witness :
    patC6.fields = some fieldsC6 ∧
    "a" ∈ (getScriptedFields patC6).map (fun f => f.name) ∧
    addScriptedField patC6 "a" "s" none none =
      { pat := patC6, res := some (JErr.duplicateField "a"), ops := [] } := by
  refine ⟨rfl, by decide, ?_⟩
  exact (addScriptedField_spec patC6 "a" "s" none none fieldsC6 rfl).1 (by decide)

/-! ### C8: destroy and prepBody clear the client-side caches -/

/-- C8: `destroy` clears the pattern cache entry and stops the config
watcher before issuing the delete against the remote store, and every
`prepBody` call (hence every `save` call, whose effect log starts with the
`prepBody` cache clear) clears the cached list of index-pattern ids. -/
theorem destroy_and_prepBody_cache_spec (p : Pattern) (env : SaveEnv) (n : Nat) :
    (∃ pre post, destroyOps p = pre ++ Op.delete objectType p.id :: post ∧
      Op.unwatch ∈ pre ∧ Op.patternCacheClear p.id ∈ pre) ∧
    Op.clearIdsCache ∈ prepBodyOps ∧
    (save env p n).ops.head? = some Op.clearIdsCache := by
  refine ⟨⟨[Op.unwatch, Op.patternCacheClear p.id], [], rfl, by simp, by simp⟩,
    by simp [prepBodyOps], ?_⟩
  obtain ⟨rest, hr⟩ := save_ops_shape env p n
  simp [hr]

/-! ### C9: popularizeField -/

theorem find?_setFieldCount (fs : List SField) (nm : String) (c : Int) (f : SField)
    (h : fs.find? (fun g => g.name == nm) = some f) :
    (setFieldCount fs nm c).find? (fun g => g.name == nm) =
      some { f with count := some c } := by
  induction fs with
  | nil => simp at h
  | cons g gs ih =>
      by_cases hg : (g.name == nm) = true
      · simp only [List.find?_cons, hg] at h
        rw [Option.some_inj] at h
        subst h
        simp [setFieldCount, List.find?_cons, hg]
      · simp only [List.find?_cons, hg] at h
        simp only [setFieldCount, hg, Bool.false_eq_true, if_false]
        simp only [List.find?_cons, hg]
        exact ih h

/-- C9: `popularizeField` does nothing when no field with the given name
exists, never sets a count below zero (the new count is the clamped
`max (count + unit) 0`), and triggers a save exactly when the clamped
count differs from the field's current count. -/
theorem popularizeField_spec (p : Pattern) (fieldName : String) (unit : Int) :
    (byName p fieldName = none →
      popularizeField p fieldName unit = { pat := p, res := none, ops := [] }) ∧
    (∀ f : SField, byName p fieldName = some f →
      0 ≤ max ((f.count.getD 0) + unit) 0 ∧
      (f.count = some (max ((f.count.getD 0) + unit) 0) →
        popularizeField p fieldName unit = { pat := p, res := none, ops := [] }) ∧
      (f.count ≠ some (max ((f.count.getD 0) + unit) 0) →
        (popularizeField p fieldName unit).ops = [Op.saveCall] ∧
        byName (popularizeField p fieldName unit).pat fieldName =
          some { f with count := some (max ((f.count.getD 0) + unit) 0) })) := by
  constructor
  · intro h
    simp [popularizeField, h]
  · intro f hf
    refine ⟨le_max_right _ _, ?_, ?_⟩
    · intro heq
      simp only [popularizeField, hf]
      rw [if_pos heq]
    · intro hne
      have hrun : popularizeField p fieldName unit =
          { pat := { p with fields := some (setFieldCount (p.fields.getD []) fieldName (max ((f.count.getD 0) + unit) 0)) }
            res := none
            ops := [Op.saveCall] } := by
        simp only [popularizeField, hf]
        rw [if_neg hne]
      refine ⟨by simp [hrun], ?_⟩
      rw [hrun]
      exact find?_setFieldCount _ _ _ _ hf

/-- Pattern fixture for the C9 witness. -/
def patC9 : Pattern :=
  { id := some "c9", version := some 1, title := some "t", timeFieldName := none
    intervalName := none
    fields := some
      [{ name := "a", script := none, type := "number", scripted := some false
         lang := none, count := some 1, hasAggregatable := true, hasSearchable := true
         hasReadFromDocValues := true }]
    sourceFilters := none, fieldFormatMap := none, type := none, typeMeta := none
    originalBody := emptyBody }

theorem popularizeField_spec_witness :
    byName patC9 "a" = some
      { name := "a", script := none, type := "number", scripted := some false
        lang := none, count := some 1, hasAggregatable := true, hasSearchable := true
        hasReadFromDocValues := true } ∧
    (popularizeField patC9 "a" (-5)).ops = [Op.saveCall] ∧
    byName (popularizeField patC9 "a" (-5)).pat "a" = some
      { name := "a", script := none, type := "number", scripted := some false
        lang := none, count := some 0, hasAggregatable := true, hasSearchable := true
        hasReadFromDocValues := true } := by
  have h := ((popularizeField_spec patC9 "a" (-5)).2
    { name := "a", script := none, type := "number", scripted := some false
      lang := none, count := some 1, hasAggregatable := true, hasSearchable := true
      hasReadFromDocValues := true } (by decide)).2.2 (by decide)
  exact ⟨by decide, h.1, by simpa using h.2⟩

theorem prepBody_key_presence_spec_witness :
    ffmSerialize [("bytes", (none : Option FormatCfg))] = none ∧
    ffmDeserialize (fun _ => true) none = [] := by
  refine ⟨?_, prepBody_key_presence_spec.2.2 (fun _ => true)⟩
  exact (prepBody_key_presence_spec.2.1 [("bytes", none)]).mpr (by decide)

/-! ### C3: optimistic-concurrency version handling in save -/

/-- C3: every `save` call passes the pattern's current version to the
saved-objects update call, and a successful update replaces the pattern's
id and version with the values returned by the store. -/
theorem save_version_spec (env : SaveEnv) (p : Pattern) (n : Nat) :
    (∃ rest, (save env p n).ops =
      Op.clearIdsCache :: Op.update objectType p.id (prepBody p) p.version :: rest) ∧
    (∀ (newId : String) (newVersion : Nat), env.upd n = UpdResult.ok newId newVersion →
      save env p n =
        { pat := { p with id := some newId, version := some newVersion }
          res := none
          ops := baseOps p }) :=
  ⟨save_ops_shape env p n, fun i v h => save_upd_ok env p n i v h⟩

/-- Pattern fixture for the save witnesses. -/
def patC3 : Pattern :=
  { id := some "c3", version := some 4, title := some "t", timeFieldName := none
    intervalName := none, fields := none, sourceFilters := none
    fieldFormatMap := none, type := none, typeMeta := none, originalBody := emptyBody }

/-- Environment fixture for the C3 witness: the update succeeds. -/
def envC3 : SaveEnv :=
  { upd := fun _ => UpdResult.ok "nid" 9
    srv := fun _ => Except.error (JErr.other "unused") }

theorem save_version_spec_witness :
    envC3.upd 0 = UpdResult.ok "nid" 9 ∧
    save envC3 patC3 0 =
      { pat := { patC3 with id := some "nid", version := some 9 }
        res := none
        ops := baseOps patC3 } :=
  ⟨rfl, (save_version_spec envC3 patC3 0).2 "nid" 9 rfl⟩

/-! ### C2: the retry budget -/

theorem countUpd_baseOps (p : Pattern) : countUpd (baseOps p) = 1 := rfl

theorem countUpd_save_le (k : Nat) : ∀ (env : SaveEnv) (p : Pattern) (n : Nat),
    MAX_ATTEMPTS_TO_RESOLVE_CONFLICTS - n ≤ k → n ≤ MAX_ATTEMPTS_TO_RESOLVE_CONFLICTS →
    countUpd (save env p n).ops + n ≤ MAX_ATTEMPTS_TO_RESOLVE_CONFLICTS + 1 := by
  induction k with
  | zero =>
      intro env p n hk hn
      have hn3 : n = MAX_ATTEMPTS_TO_RESOLVE_CONFLICTS := by omega
      subst hn3
      rcases hu : env.upd MAX_ATTEMPTS_TO_RESOLVE_CONFLICTS with ⟨i, v⟩ | e
      · rw [save_upd_ok _ _ _ _ _ hu]
        rw [countUpd_baseOps]
        omega
      · rw [save_upd_err_reject _ _ _ _ hu (fun hc => absurd hc.2 (lt_irrefl _))]
        rw [countUpd_baseOps]
        omega
  | succ k ih =>
      intro env p n hk hn
      rcases hu : env.upd n with ⟨i, v⟩ | e
      · rw [save_upd_ok _ _ _ _ _ hu]
        rw [countUpd_baseOps]
        omega
      · by_cases hc : JErr.status e = some 409 ∧ n < MAX_ATTEMPTS_TO_RESOLVE_CONFLICTS
        · rcases hsrv : env.srv n with e2 | sp
          · rw [save_conflict_initfail _ _ _ _ _ hu hc.1 hc.2 hsrv]
            have h1 : countUpd (baseOps p ++ [Op.get objectType p.id]) = 1 := rfl
            rw [h1]
            omega
          · rcases hcol : unresolvedCollision p sp with _ | _
            · rw [save_conflict_merge _ _ _ _ _ hu hc.1 hc.2 hsrv hcol]
              have hrec := ih env (mergedPattern p sp) (n + 1) (by omega) (by omega)
              have h1 : ∀ tail : List Op, countUpd (baseOps p ++
                  [Op.get objectType p.id, Op.clearIdsCache, Op.patternCacheClear p.id] ++ tail) =
                  1 + countUpd tail := by
                intro tail
                simp only [countUpd, List.append_assoc, List.countP_append]
                have h2 : (baseOps p).countP isUpdateOp = 1 := rfl
                have h3 : ([Op.get objectType p.id, Op.clearIdsCache,
                    Op.patternCacheClear p.id]).countP isUpdateOp = 0 := rfl
                rw [h2, h3]
                omega
              rw [h1]
              omega
            · rw [save_conflict_collision _ _ _ _ _ hu hc.1 hc.2 hsrv hcol]
              have h1 : countUpd (baseOps p ++
                  [Op.get objectType p.id, Op.clearIdsCache, Op.notifyDanger]) = 1 := rfl
              rw [h1]
              omega
        · rw [save_upd_err_reject _ _ _ _ hu hc]
          rw [countUpd_baseOps]
          omega

/-- C2: a conflict retry happens only for an update error with status 409
while fewer than `MAX_ATTEMPTS_TO_RESOLVE_CONFLICTS` retries have been
made: a non-409 error, or any error once the budget is exhausted, makes
`save` reject with that error after its single update call, and a save
cascade starting at attempt `n` issues at most `4 - n` update calls. -/
theorem save_retry_budget_spec (env : SaveEnv) (p : Pattern) (n : Nat) (e : JErr) :
    (env.upd n = UpdResult.err e → JErr.status e ≠ some 409 →
      save env p n = { pat := p, res := some e, ops := baseOps p }) ∧
    (env.upd n = UpdResult.err e → MAX_ATTEMPTS_TO_RESOLVE_CONFLICTS ≤ n →
      save env p n = { pat := p, res := some e, ops := baseOps p }) ∧
    (n ≤ MAX_ATTEMPTS_TO_RESOLVE_CONFLICTS →
      countUpd (save env p n).ops + n ≤ MAX_ATTEMPTS_TO_RESOLVE_CONFLICTS + 1) := by
  refine ⟨?_, ?_, ?_⟩
  · intro hu hs
    exact save_upd_err_reject env p n e hu (fun hc => hs hc.1)
  · intro hu hn
    exact save_upd_err_reject env p n e hu (fun hc => absurd hc.2 (by omega))
  · intro hn
    exact countUpd_save_le MAX_ATTEMPTS_TO_RESOLVE_CONFLICTS env p n (by omega) hn

/-- Environment fixture for the C2 witness: a non-conflict failure. -/
def envC2 : SaveEnv :=
  { upd := fun _ => UpdResult.err (JErr.other "network")
    srv := fun _ => Except.error (JErr.other "unused") }

theorem save_retry_budget_spec_witness :
    envC2.upd 0 = UpdResult.err (JErr.other "network") ∧
    JErr.status (JErr.other "network") ≠ some 409 ∧
    save envC2 patC3 0 =
      { pat := patC3, res := some (JErr.other "network"), ops := baseOps patC3 } := by
  refine ⟨rfl, by decide, ?_⟩
  exact (save_retry_budget_spec envC2 patC3 0 (JErr.other "network")).1 rfl (by decide)

/-! ### C1: conflict-key diffing -/

theorem unresolvedCollision_iff (p sp : Pattern) :
    unresolvedCollision p sp = true ↔
      ∃ k, k ∈ originalChangedKeys p ∧ k ∈ serverChangedKeys p sp := by
  constructor
  · intro h
    obtain ⟨k, hk, k2, hk2, heq⟩ :
        ∃ k, k ∈ originalChangedKeys p ∧ ∃ k2, k2 ∈ serverChangedKeys p sp ∧ k = k2 := by
      simpa [unresolvedCollision, List.any_eq_true] using h
    exact ⟨k, hk, heq ▸ hk2⟩
  · rintro ⟨k, hk, hk2⟩
    simp only [unresolvedCollision, List.any_eq_true, decide_eq_true_eq]
    exact ⟨k, hk, k, hk2, rfl⟩

theorem agreesAt_refl (q : Pattern) (k : MKey) : agreesAt q q k := by
  cases k <;> rfl

theorem copyKey_agrees (q sp : Pattern) (k : MKey) : agreesAt (copyKey q sp k) sp k := by
  cases k <;> simp [copyKey, agreesAt]

theorem copyKey_agrees_other (q sp r : Pattern) (k k2 : MKey) (h : k ≠ k2) :
    (agreesAt (copyKey q sp k2) r k ↔ agreesAt q r k) := by
  cases k <;> cases k2 <;> simp_all [copyKey, agreesAt]

theorem copyKey_originalBody (q sp : Pattern) (k : MKey) :
    (copyKey q sp k).originalBody = q.originalBody := by
  cases k <;> rfl

theorem foldl_copyKey_other (sp r : Pattern) (L : List MKey) (k : MKey) (h : k ∉ L) :
    ∀ q : Pattern, (agreesAt (L.foldl (fun a kk => copyKey a sp kk) q) r k ↔ agreesAt q r k) := by
  induction L with
  | nil => intro q; exact Iff.rfl
  | cons kk ks ih =>
      intro q
      simp only [List.foldl_cons]
      have hne : k ≠ kk := fun he => h (he ▸ List.mem_cons_self kk ks)
      rw [ih (fun hin => h (List.mem_cons_of_mem _ hin)) (copyKey q sp kk)]
      exact copyKey_agrees_other q sp r k kk hne

theorem foldl_copyKey_agrees (sp : Pattern) (L : List MKey) :
    ∀ (q : Pattern) (k : MKey), k ∈ L →
      agreesAt (L.foldl (fun a kk => copyKey a sp kk) q) sp k := by
  induction L with
  | nil => intro q k hk; simp at hk
  | cons kk ks ih =>
      intro q k hk
      simp only [List.foldl_cons]
      by_cases hmem : k ∈ ks
      · exact ih _ k hmem
      · rcases List.mem_cons.mp hk with h | h
        · subst h
          exact (foldl_copyKey_other sp sp ks k hmem _).mpr (copyKey_agrees q sp k)
        · exact absurd h hmem

theorem foldl_copyKey_originalBody (sp : Pattern) (L : List MKey) :
    ∀ q : Pattern, (L.foldl (fun a kk => copyKey a sp kk) q).originalBody = q.originalBody := by
  induction L with
  | nil => intro q; rfl
  | cons kk ks ih =>
      intro q
      simp only [List.foldl_cons]
      rw [ih, copyKey_originalBody]

theorem mergedPattern_agrees (p sp : Pattern) (k : MKey) (h : k ∈ serverChangedKeys p sp) :
    agreesAt (mergedPattern p sp) sp k := by
  have := foldl_copyKey_agrees sp (serverChangedKeys p sp) p k h
  cases k <;> simpa [mergedPattern, agreesAt] using this

theorem mergedPattern_agrees_other (p sp : Pattern) (k : MKey)
    (h : k ∉ serverChangedKeys p sp) : agreesAt (mergedPattern p sp) p k := by
  have := (foldl_copyKey_other sp p (serverChangedKeys p sp) k h p).mpr (agreesAt_refl p k)
  cases k <;> simpa [mergedPattern, agreesAt] using this

theorem mergedPattern_version (p sp : Pattern) :
    (mergedPattern p sp).version = sp.version := by
  simp [mergedPattern]

theorem mergedPattern_originalBody (p sp : Pattern) :
    (mergedPattern p sp).originalBody = p.originalBody := by
  simp only [mergedPattern]
  rw [foldl_copyKey_originalBody]

/-- C1: on a 409 update error with retries remaining, `save` reloads the
server document and diffs the changed-key sets: `originalChangedKeys` are
the body keys differing from `originalBody`, `serverChangedKeys` the
reloaded body's keys differing from both the local body and
`originalBody`; a key in both sets makes it notify the user and rethrow
the original error without retrying, and otherwise it copies the server's
changed values onto the pattern, adopts the server's version, clears the
pattern cache entry for its id and retries the save. -/
theorem save_conflict_diffing_spec (env : SaveEnv) (p sp : Pattern) (n : Nat) (e : JErr)
    (hupd : env.upd n = UpdResult.err e) (h409 : JErr.status e = some 409)
    (hn : n < MAX_ATTEMPTS_TO_RESOLVE_CONFLICTS) (hsrv : env.srv n = Except.ok sp) :
    (∀ k : MKey, k ∈ originalChangedKeys p ↔
      k ∈ Body.keys (prepBody p) ∧ Body.atKey (prepBody p) k ≠ Body.atKey p.originalBody k) ∧
    (∀ k : MKey, k ∈ serverChangedKeys p sp ↔
      k ∈ Body.keys (prepBody sp) ∧ Body.atKey (prepBody sp) k ≠ Body.atKey (prepBody p) k ∧
        Body.atKey p.originalBody k ≠ Body.atKey (prepBody sp) k) ∧
    ((∃ k, k ∈ originalChangedKeys p ∧ k ∈ serverChangedKeys p sp) →
      save env p n =
        { pat := p
          res := some e
          ops := baseOps p ++ [Op.get objectType p.id, Op.clearIdsCache, Op.notifyDanger] }) ∧
    ((¬∃ k, k ∈ originalChangedKeys p ∧ k ∈ serverChangedKeys p sp) →
      save env p n =
        { pat := (save env (mergedPattern p sp) (n + 1)).pat
          res := (save env (mergedPattern p sp) (n + 1)).res
          ops := baseOps p ++
            [Op.get objectType p.id, Op.clearIdsCache, Op.patternCacheClear p.id] ++
            (save env (mergedPattern p sp) (n + 1)).ops } ∧
      (∀ k, k ∈ serverChangedKeys p sp → agreesAt (mergedPattern p sp) sp k) ∧
      (∀ k, k ∉ serverChangedKeys p sp → agreesAt (mergedPattern p sp) p k) ∧
      (mergedPattern p sp).version = sp.version) := by
  refine ⟨?_, ?_, ?_, ?_⟩
  · intro k
    simp [originalChangedKeys, List.mem_filter]
  · intro k
    simp [serverChangedKeys, List.mem_filter, and_assoc]
  · intro hex
    exact save_conflict_collision env p sp n e hupd h409 hn hsrv
      ((unresolvedCollision_iff p sp).mpr hex)
  · intro hnex
    have hcol : unresolvedCollision p sp = false := by
      rw [Bool.eq_false_iff]
      intro h
      exact hnex ((unresolvedCollision_iff p sp).mp h)
    exact ⟨save_conflict_merge env p sp n e hupd h409 hn hsrv hcol,
      fun k hk => mergedPattern_agrees p sp k hk,
      fun k hk => mergedPattern_agrees_other p sp k hk,
      mergedPattern_version p sp⟩

/-- Base fixture for the C1 witness: the state the pattern had when it was
last pulled from the store. -/
def patC1base : Pattern :=
  { id := some "c1", version := some 1, title := some "t0", timeFieldName := none
    intervalName := none, fields := none, sourceFilters := none
    fieldFormatMap := none, type := none, typeMeta := none, originalBody := emptyBody }

/-- C1 witness pattern: the local edit changed the title. -/
def patC1 : Pattern := { patC1base with title := some "t1", originalBody := prepBody patC1base }

/-- C1 witness server document: the server also changed the title. -/
def spC1 : Pattern :=
  { patC1base with title := some "t2", version := some 2, originalBody := prepBody patC1base }

/-- Environment fixture for the C1 witness: the update conflicts and the
reload returns the server's state. -/
def envC1 : SaveEnv :=
  { upd := fun _ => UpdResult.err (JErr.httpStatus 409)
    srv := fun _ => Except.ok spC1 }

theorem save_conflict_diffing_spec_witness :
    envC1.upd 0 = UpdResult.err (JErr.httpStatus 409) ∧
    JErr.status (JErr.httpStatus 409) = some 409 ∧
    envC1.srv 0 = Except.ok spC1 ∧
    save envC1 patC1 0 =
      { pat := patC1
        res := some (JErr.httpStatus 409)
        ops := baseOps patC1 ++ [Op.get objectType patC1.id, Op.clearIdsCache, Op.notifyDanger] } := by
  refine ⟨rfl, rfl, rfl, ?_⟩
  exact (save_conflict_diffing_spec envC1 patC1 spC1 0 (JErr.httpStatus 409)
    rfl rfl (by decide) rfl).2.2.1 ⟨MKey.title, by decide, by decide⟩

/-! ### C7: refreshFields error handling -/

/-- C7: `refreshFields` merges the fetched remote fields with the
pattern's scripted fields into a new field list and saves; a failure of
the fetch or of the save with `IndexPatternMissingIndices` is notified and
swallowed, resolving with the empty list, while any other error is
notified and rethrown. -/
theorem refreshFields_spec (fetchRes : Except JErr (List SField)) (senv : SaveEnv)
    (p : Pattern) :
    (fetchRes = Except.error JErr.indexPatternMissingIndices →
      refreshFields fetchRes senv p =
        { pat := p, res := Except.ok RVal.emptyList
          ops := [Op.fetchFields, Op.notifyDanger] }) ∧
    (∀ e, fetchRes = Except.error e → e ≠ JErr.indexPatternMissingIndices →
      refreshFields fetchRes senv p =
        { pat := p, res := Except.error e, ops := [Op.fetchFields, Op.notifyError] }) ∧
    (∀ flds, fetchRes = Except.ok flds →
      (∃ tail, (refreshFields fetchRes senv p).ops =
        (Op.fetchFields ::
          (save senv { p with fields := some (flds ++ getScriptedFields p) } 0).ops) ++ tail) ∧
      ((save senv { p with fields := some (flds ++ getScriptedFields p) } 0).res = none →
        refreshFields fetchRes senv p =
          { pat := (save senv { p with fields := some (flds ++ getScriptedFields p) } 0).pat
            res := Except.ok RVal.unit
            ops := Op.fetchFields ::
              (save senv { p with fields := some (flds ++ getScriptedFields p) } 0).ops }) ∧
      ((save senv { p with fields := some (flds ++ getScriptedFields p) } 0).res =
          some JErr.indexPatternMissingIndices →
        refreshFields fetchRes senv p =
          { pat := (save senv { p with fields := some (flds ++ getScriptedFields p) } 0).pat
            res := Except.ok RVal.emptyList
            ops := (Op.fetchFields ::
              (save senv { p with fields := some (flds ++ getScriptedFields p) } 0).ops) ++
              [Op.notifyDanger] }) ∧
      (∀ e, (save senv { p with fields := some (flds ++ getScriptedFields p) } 0).res = some e →
        e ≠ JErr.indexPatternMissingIndices →
        refreshFields fetchRes senv p =
          { pat := (save senv { p with fields := some (flds ++ getScriptedFields p) } 0).pat
            res := Except.error e
            ops := (Op.fetchFields ::
              (save senv { p with fields := some (flds ++ getScriptedFields p) } 0).ops) ++
              [Op.notifyError] })) := by
  refine ⟨?_, ?_, ?_⟩
  · intro h
    subst h
    simp [refreshFields, refreshHandleErr]
  · intro e h hne
    subst h
    simp [refreshFields, refreshHandleErr, hne]
  · intro flds h
    subst h
    refine ⟨?_, ?_, ?_, ?_⟩
    · simp only [refreshFields]
      rcases hres : (save senv { p with fields := some (flds ++ getScriptedFields p) } 0).res
        with _ | e
      · exact ⟨[], by simp⟩
      · simp only [refreshHandleErr]
        split
        · exact ⟨[Op.notifyDanger], rfl⟩
        · exact ⟨[Op.notifyError], rfl⟩
    · intro hres
      simp only [refreshFields]
      rw [hres]
    · intro hres
      simp only [refreshFields]
      rw [hres]
      simp [refreshHandleErr]
    · intro e hres hne
      simp only [refreshFields]
      rw [hres]
      simp [refreshHandleErr, hne]

theorem refreshFields_spec_witness :
    refreshFields (Except.error JErr.indexPatternMissingIndices) envC3 patC3 =
      { pat := patC3, res := Except.ok RVal.emptyList
        ops := [Op.fetchFields, Op.notifyDanger] } :=
  (refreshFields_spec (Except.error JErr.indexPatternMissingIndices) envC3 patC3).1 rfl

/-! ### C4: init fetch and not-found handling -/

/-- C4: for a pattern with a (truthy) id, `init` issues a
`savedObjectsClient.get` for type `'index-pattern'` and that id, and a
fetched response carrying no version (not found) makes `init` reject with
`SavedObjectNotFound`; for a pattern with no id, `init` resolves to the
pattern itself without issuing any remote request. -/
theorem init_spec (env : InitEnv) (force : Bool) (p : Pattern) :
    (idTruthy p.id = false →
      init env force p = { pat := p, res := none, ops := [Op.watch] }) ∧
    (idTruthy p.id = true →
      ∃ rest, (init env force p).ops = Op.watch :: Op.get objectType p.id :: rest) ∧
    (∀ resp : GetResp, idTruthy p.id = true → env.getResp = Except.ok resp →
      versionTruthy resp.version = false →
      (init env force p).res = some (JErr.savedObjectNotFound objectType p.id)) := by
  refine ⟨?_, ?_, ?_⟩
  · intro h
    simp [init, h]
  · intro h
    simp only [init, h, Bool.true_eq_false, if_false]
    split
    · exact ⟨[], rfl⟩
    · split
      · exact ⟨_, rfl⟩
      · exact ⟨_, rfl⟩
  · intro resp h hget hv
    simp only [init, h, Bool.true_eq_false, if_false, hget]
    have hu : (updateFromElasticSearch env
        { p with
          version := resp.version
          originalBody := prepBody { p with version := resp.version } }
        { docId := resp.id
          docType := resp.objType
          source := resp.attributes
          found := versionTruthy resp.version } force).res =
        some (JErr.savedObjectNotFound objectType p.id) := by
      simp [updateFromElasticSearch, hv]
    rw [hu]

/-- Stored document fixture for the C4 witness. -/
def docC4 : StoredDoc :=
  { title := some "t", timeFieldName := none, intervalName := none, fields := none
    sourceFilters := none, fieldFormatMap := none, type := none, typeMeta := none }

/-- Pattern fixture for the C4 witness. -/
def patC4 : Pattern :=
  { id := some "c4", version := none, title := none, timeFieldName := none
    intervalName := none, fields := none, sourceFilters := none, fieldFormatMap := none
    type := none, typeMeta := none, originalBody := emptyBody }

/-- Environment fixture for the C4 witness: the store has no such
document, so the response carries no version. -/
def envC4 : InitEnv :=
  { reg := fun _ => false
    getResp := Except.ok
      { id := "c4", objType := "index-pattern", attributes := docC4, version := none }
    fetchRes := Except.ok []
    senv := envC3 }

theorem init_spec_witness :
    idTruthy patC4.id = true ∧
    versionTruthy (none : Option Nat) = false ∧
    (init envC4 false patC4).res = some (JErr.savedObjectNotFound objectType patC4.id) := by
  refine ⟨by decide, by decide, ?_⟩
  exact (init_spec envC4 false patC4).2.2
    { id := "c4", objType := "index-pattern", attributes := docC4, version := none }
    (by decide) rfl (by decide)

/-! ### C10: a loaded pattern always carries a title -/

theorem atKey_prepBody_title (p : Pattern) :
    Body.atKey (prepBody p) MKey.title = p.title.map BVal.text := by
  cases htp : p.title <;> simp [Body.atKey, Body.get, prepBody, htp]

theorem save_pat_title (k : Nat) : ∀ (env : SaveEnv) (p : Pattern) (n : Nat) (t : String),
    MAX_ATTEMPTS_TO_RESOLVE_CONFLICTS - n ≤ k →
    p.title = some t →
    Body.atKey p.originalBody MKey.title ≠ some (BVal.text t) →
    (save env p n).pat.title = some t := by
  induction k with
  | zero =>
      intro env p n t hk ht hb
      rcases hu : env.upd n with ⟨i, v⟩ | e
      · rw [save_upd_ok _ _ _ _ _ hu]
        exact ht
      · rw [save_upd_err_reject _ _ _ _ hu (fun hc => absurd hc.2 (by omega))]
        exact ht
  | succ k ih =>
      intro env p n t hk ht hb
      rcases hu : env.upd n with ⟨i, v⟩ | e
      · rw [save_upd_ok _ _ _ _ _ hu]
        exact ht
      · by_cases hc : JErr.status e = some 409 ∧ n < MAX_ATTEMPTS_TO_RESOLVE_CONFLICTS
        · rcases hsrv : env.srv n with e2 | sp
          · rw [save_conflict_initfail _ _ _ _ _ hu hc.1 hc.2 hsrv]
            exact ht
          · rcases hcol : unresolvedCollision p sp with _ | _
            · rw [save_conflict_merge _ _ _ _ _ hu hc.1 hc.2 hsrv hcol]
              have hmem : MKey.title ∈ originalChangedKeys p := by
                simp only [originalChangedKeys, List.mem_filter]
                refine ⟨?_, ?_⟩
                · simp [Body.keys, mappingKeys, List.mem_filter, Body.get, prepBody, ht]
                · rw [bne_iff_ne, atKey_prepBody_title, ht]
                  simpa [eq_comm] using hb
              have hnot : MKey.title ∉ serverChangedKeys p sp := by
                intro hmem2
                have hcll := (unresolvedCollision_iff p sp).mpr ⟨MKey.title, hmem, hmem2⟩
                rw [hcol] at hcll
                exact Bool.false_ne_true hcll
              have hmt : (mergedPattern p sp).title = p.title :=
                mergedPattern_agrees_other p sp MKey.title hnot
              refine ih env (mergedPattern p sp) (n + 1) t (by omega) ?_ ?_
              · rw [hmt]
                exact ht
              · rw [mergedPattern_originalBody]
                exact hb
            · rw [save_conflict_collision _ _ _ _ _ hu hc.1 hc.2 hsrv hcol]
              exact ht
        · rw [save_upd_err_reject _ _ _ _ hu hc]
          exact ht

theorem refreshFields_pat_title (fetchRes : Except JErr (List SField)) (senv : SaveEnv)
    (p : Pattern) (t : String) (ht : p.title = some t)
    (hb : Body.atKey p.originalBody MKey.title ≠ some (BVal.text t)) :
    (refreshFields fetchRes senv p).pat.title = some t := by
  rcases fetchRes with e | flds
  · simp only [refreshFields, refreshHandleErr]
    split
    · exact ht
    · exact ht
  · simp only [refreshFields]
    have hs := save_pat_title MAX_ATTEMPTS_TO_RESOLVE_CONFLICTS senv
      { p with fields := some (flds ++ getScriptedFields p) } 0 t (by omega) ht hb
    rcases hres : (save senv { p with fields := some (flds ++ getScriptedFields p) } 0).res
      with _ | e
    · exact hs
    · simp only [refreshHandleErr]
      split
      · exact hs
      · exact hs

theorem indexFields_pat_title (env : InitEnv) (p : Pattern) (force : Bool) (t : String)
    (ht : p.title = some t)
    (hb : Body.atKey p.originalBody MKey.title ≠ some (BVal.text t)) :
    (indexFields env p force).pat.title = some t := by
  by_cases hid0 : idTruthy p.id = false
  · simp only [indexFields, hid0, if_true]
    exact ht
  · have hid1 : (idTruthy p.id = false) = False := by simp [hid0]
    by_cases href : (force || isFieldRefreshRequired p) = true
    · have hr := refreshFields_pat_title env.fetchRes env.senv p t ht hb
      simp only [indexFields, hid1, if_false, href, if_true]
      rcases hres : (refreshFields env.fetchRes env.senv p).res with e | v
      · exact hr
      · simpa [initFieldsP] using hr
    · have href2 : (force || isFieldRefreshRequired p) = false := by
        revert href
        cases force || isFieldRefreshRequired p <;> simp
      simp only [indexFields, hid1, if_false, href2, Bool.false_eq_true]
      simpa [initFieldsP] using ht

theorem updateFromElasticSearch_title (env : InitEnv) (p : Pattern) (r : EsResponse)
    (force : Bool) (i : String)
    (hfound : r.found = true) (hid : p.id = some i)
    (htitle : p.title = none) (hdoc : r.source.title = none)
    (hb : Body.atKey p.originalBody MKey.title ≠ some (BVal.text i)) :
    (updateFromElasticSearch env p r force).pat.title = some i := by
  have hassign : (assignSource env.reg p r.source).title = p.title := by
    simp [assignSource, hdoc]
  have hassignId : (assignSource env.reg p r.source).id = p.id := rfl
  have hfalsy : titleFalsy (assignSource env.reg p r.source).title = true := by
    rw [hassign, htitle]
    rfl
  simp only [updateFromElasticSearch, hfound, Bool.true_eq_false, if_false, hfalsy, if_true]
  refine indexFields_pat_title env _ force i ?_ ?_
  · show (assignSource env.reg p r.source).id = some i
    rw [hassignId, hid]
  · show Body.atKey (assignSource env.reg p r.source).originalBody MKey.title ≠
      some (BVal.text i)
    exact hb

/-- C10: after a successful `init` of a pattern with (truthy) id whose
stored document lacks a title, the pattern's title has been set to its id,
hence is non-empty. -/
theorem init_title_default_spec (env : InitEnv) (force : Bool) (p : Pattern) (i : String)
    (resp : GetResp)
    (hid : p.id = some i) (hne : i ≠ "") (htitle : p.title = none)
    (hget : env.getResp = Except.ok resp) (hfound : versionTruthy resp.version = true)
    (hdoc : resp.attributes.title = none)
    (hok : (init env force p).res = none) :
    (init env force p).pat.title = some i ∧ i ≠ "" := by
  refine ⟨?_, hne⟩
  have hidT : idTruthy p.id = true := by
    rw [hid]
    simpa [idTruthy] using hne
  have hu := updateFromElasticSearch_title env
    { p with version := resp.version, originalBody := prepBody { p with version := resp.version } }
    { docId := resp.id, docType := resp.objType
      source := resp.attributes, found := versionTruthy resp.version } force i
    (by simpa using hfound) (by simpa using hid) (by simpa using htitle) hdoc
    (by
      show Body.atKey (prepBody { p with version := resp.version }) MKey.title ≠
        some (BVal.text i)
      rw [atKey_prepBody_title]
      show p.title.map BVal.text ≠ some (BVal.text i)
      rw [htitle]
      simp)
  simp only [init, hidT, Bool.true_eq_false, if_false, hget]
  rcases hres : (updateFromElasticSearch env
      { p with version := resp.version, originalBody := prepBody { p with version := resp.version } }
      { docId := resp.id, docType := resp.objType
        source := resp.attributes, found := versionTruthy resp.version } force).res with _ | e
  · exact hu
  · exact hu

/-- Stored document fixture for the C10 witness: complete enough for the
field-refresh check to pass, but with no title. -/
def docC10 : StoredDoc :=
  { title := none, timeFieldName := none, intervalName := none
    fields := some
      [{ name := "f", script := none, type := "number", scripted := some false
         lang := none, count := none, hasAggregatable := true, hasSearchable := true
         hasReadFromDocValues := true }]
    sourceFilters := none, fieldFormatMap := none, type := none, typeMeta := none }

/-- Pattern fixture for the C10 witness: a freshly constructed pattern. -/
def patC10 : Pattern :=
  { id := some "c10", version := none, title := none, timeFieldName := none
    intervalName := none, fields := none, sourceFilters := none, fieldFormatMap := none
    type := none, typeMeta := none, originalBody := emptyBody }

/-- Environment fixture for the C10 witness: the document is found. -/
def envC10 : InitEnv :=
  { reg := fun _ => false
    getResp := Except.ok
      { id := "c10", objType := "index-pattern", attributes := docC10, version := some 1 }
    fetchRes := Except.ok []
    senv := envC3 }

theorem init_title_default_spec_witness :
    (init envC10 false patC10).res = none ∧
    (init envC10 false patC10).pat.title = some "c10" := by
  have h := init_title_default_spec envC10 false patC10 "c10"
    { id := "c10", objType := "index-pattern", attributes := docC10, version := some 1 }
    rfl (by decide) rfl rfl (by decide) rfl (by decide)
  exact ⟨by decide, h.1⟩

end Kibana
